import Mathlib

/-!
A shallow embedding of the restaurant-management backend (`app.py`) and
proofs about its data model, serializers and request handlers.

Modelling conventions, used throughout:

* SQLAlchemy rows become Lean structures.  Ownership relations
  (`Restaurant.menu_items`, `Restaurant.tables`, `Table.bookings`, ...)
  are represented by nesting the child list inside the parent structure,
  so the `restaurant_id` / `table_id` foreign-key columns are implicit in
  the nesting and `MenuItem.query.filter_by(id=mid, restaurant_id=r.id)`
  becomes a search of `r`'s own `menu_items` list.  List order is the
  stored (insertion / primary-key) order.
* Python floats (`price`, `amount`, `total`) are modelled as `Int`: no
  claim in scope depends on fractional values, only on which coercions
  succeed and on exact additive bookkeeping of integer counters.
* `datetime` columns (`when`) are omitted: no claim mentions them.
* JSON payload fields are `Option` values (`none` = field absent or JSON
  null, exactly the cases where Python's `data.get(k)` yields `None`);
  fields whose runtime type may be wrong are modelled by the `Val` type.
* A handler returns `HResp × DB`: its HTTP outcome and the committed
  store.  `HResp.exception` stands for an uncaught Python exception
  (a 500-class failure); since `db.session.commit()` is then never
  reached, the store is returned unchanged on that path.
-/

/-- A JSON scalar as Python sees it: a number or a string.  An absent or
null field is represented by `Option.none` around `Val`. -/
inductive Val where
  | vnum (n : Int)
  | vstr (s : String)
deriving DecidableEq

/-- Python truthiness of an optional string, as used by `if not x:` checks
in the handlers: `None` and the empty string are falsy. -/
def strTruthy : Option String → Bool
  | some s => s ≠ ""
  | none => false

/-- Numeric value of a digit character. -/
def digitVal (c : Char) : Nat := c.toNat - 48

/-- Digit-string parse used to model Python's numeric coercions on
strings: a nonempty all-digit string parses, everything else raises.
(This restricts Python's `float`/`int` parse to unsigned integer
literals; the claims in scope depend only on coercion success/failure
and on integer arithmetic, never on fractional or signed literals.) -/
def parseDigits (cs : List Char) : Option Nat :=
  if cs ≠ [] ∧ cs.all Char.isDigit then
    some (cs.foldl (fun a c => a * 10 + digitVal c) 0)
  else none

/-- Embeds Python's `float(v)` on a JSON scalar: numbers pass through,
strings parse or raise `ValueError` (`none`). -/
def pyFloat : Val → Option Int
  | .vnum n => some n
  | .vstr s => (parseDigits s.data).map Int.ofNat

/-- Embeds Python's `int(v)` on a JSON scalar (same success/failure
behaviour as `pyFloat` at the granularity of this model). -/
def pyInt : Val → Option Int
  | .vnum n => some n
  | .vstr s => (parseDigits s.data).map Int.ofNat

/-- Embeds `name.replace(' ', '+')` from `app.py`: since the pattern is
a single character, Python's `str.replace` is exactly character-wise
substitution. -/
def pyReplaceSpacePlus (s : String) : String :=
  String.mk (s.data.map (fun c => if c = ' ' then '+' else c))

/-- Booking row (`Booking` model): user name and opaque start/end
timestamps.  The owning table is the `Table` structure holding it. -/
structure Booking where
  id : Nat
  user_name : String
  start : String
  end_ : String
deriving DecidableEq

/-- Table row (`Table` model) with its owned bookings nested. -/
structure Table where
  id : Nat
  num : String
  status : String
  bookings : List Booking
deriving DecidableEq

/-- MenuItem row (`MenuItem` model); `order_count` has column default 0. -/
structure MenuItem where
  id : Nat
  name : String
  price : Int
  img : Option String
  order_count : Int
deriving DecidableEq

/-- Income row (`Income` model), minus the `when` timestamp. -/
structure Income where
  id : Nat
  amount : Int
deriving DecidableEq

/-- Feedback row (`Feedback` model), minus the `when` timestamp. -/
structure Feedback where
  id : Nat
  user_name : String
  food_rating : Int
  service_rating : Int
  text : String
deriving DecidableEq

/-- One entry of an order's `items` payload list: `it.get("id")` and
`it.get("qty", 1)` are the only keys the code reads. -/
structure LineItem where
  id : Option Nat
  qty : Option Val
deriving DecidableEq

/-- Order row (`Order` model): random short string id, the raw items
list (stored as `items_json`), total, method; minus `when`. -/
structure Order where
  id : String
  user_name : String
  items : List LineItem
  total : Int
  method : String
deriving DecidableEq

/-- Restaurant row (`Restaurant` model) with all owned collections
nested in stored order. -/
structure Restaurant where
  id : Nat
  name : String
  logo : Option String
  menu_items : List MenuItem
  tables : List Table
  orders : List Order
  incomes : List Income
  feedback : List Feedback
deriving DecidableEq

/-- User row (`User` model). -/
structure User where
  id : Nat
  name : String
  email : String
  password_hash : String
  type : String
  restaurant_id : Option Nat
deriving DecidableEq

/-- The whole relational store.  The `next_*` fields model the per-table
autoincrement id sequences (SQLite assigns ids 1, 2, ... per table). -/
structure DB where
  users : List User
  restaurants : List Restaurant
  next_user_id : Nat
  next_restaurant_id : Nat
  next_menu_id : Nat
  next_table_id : Nat
  next_income_id : Nat
  next_feedback_id : Nat
deriving DecidableEq

/-- The store with no rows, before any request or seeding. -/
def emptyDB : DB := ⟨[], [], 1, 1, 1, 1, 1, 1⟩

/- ===================== Serializers ===================== -/

/-- The generated placeholder logo URL of `Restaurant.to_list_item` /
`Restaurant.to_full`: the avatar-service template with the name's
spaces replaced by `+`. -/
def placeholderLogo (name : String) : String :=
  "https://ui-avatars.com/api/?name=" ++ pyReplaceSpacePlus name
    ++ "&&background=101827&color=fff"

/-- Embeds the expression `self.logo or <placeholder>`: Python's `or`
falls through to the placeholder when the stored logo is `None` or the
empty string (both falsy). -/
def logoOr (logo : Option String) (name : String) : String :=
  if strTruthy logo then logo.getD "" else placeholderLogo name

/-- Embeds `self.img or "https://via.placeholder.com/400x200?text=Dish"`
from `MenuItem.to_dict`. -/
def imgOr (img : Option String) : String :=
  if strTruthy img then img.getD ""
  else "https://via.placeholder.com/400x200?text=Dish"

/-- Serialized form of a menu item (`MenuItem.to_dict`). -/
structure MenuItemDict where
  id : Nat
  name : String
  price : Int
  img : String
  orderCount : Int
deriving DecidableEq

/-- Serializer `MenuItem.to_dict`. -/
def MenuItem.to_dict (m : MenuItem) : MenuItemDict :=
  ⟨m.id, m.name, m.price, imgOr m.img, m.order_count⟩

/-- Serialized form of a table (`Table.to_dict`). -/
structure TableDict where
  id : Nat
  num : String
  status : String
deriving DecidableEq

/-- Serializer `Table.to_dict`. -/
def Table.to_dict (t : Table) : TableDict := ⟨t.id, t.num, t.status⟩

/-- Serialized form of a booking (`Booking.to_dict`). -/
structure BookingDict where
  id : Nat
  tableNum : String
  userName : String
  start : String
  end_ : String
deriving DecidableEq

/-- Serializer `Booking.to_dict`; the owning table is passed explicitly
(in the nested model the `self.table` backref always resolves, so the
`str(self.table_id)` fallback for an orphaned row cannot trigger). -/
def Booking.to_dict (t : Table) (b : Booking) : BookingDict :=
  ⟨b.id, t.num, b.user_name, b.start, b.end_⟩

/-- Serialized form of feedback (`Feedback.to_dict`), minus `when`. -/
structure FeedbackDict where
  id : Nat
  userName : String
  foodRating : Int
  serviceRating : Int
  text : String
deriving DecidableEq

/-- Serializer `Feedback.to_dict`. -/
def Feedback.to_dict (f : Feedback) : FeedbackDict :=
  ⟨f.id, f.user_name, f.food_rating, f.service_rating, f.text⟩

/-- Serialized form of an order (`Order.to_dict`), minus `when`; the
`items` field is the decode of the stored `items_json`. -/
structure OrderDict where
  id : String
  userName : String
  items : List LineItem
  total : Int
  method : String
deriving DecidableEq

/-- Serializer `Order.to_dict`. -/
def Order.to_dict (o : Order) : OrderDict :=
  ⟨o.id, o.user_name, o.items, o.total, o.method⟩

/-- Restaurant list view (`Restaurant.to_list_item`). -/
structure ListItemView where
  id : Nat
  name : String
  logo : String
  menuCount : Nat
  tableCount : Nat
deriving DecidableEq

/-- Serializer `Restaurant.to_list_item`. -/
def Restaurant.to_list_item (r : Restaurant) : ListItemView :=
  ⟨r.id, r.name, logoOr r.logo r.name, r.menu_items.length, r.tables.length⟩

/-- The aggregated full restaurant view built by `Restaurant.to_full`. -/
structure FullView where
  id : Nat
  name : String
  logo : String
  menu : List MenuItemDict
  tables : List TableDict
  orders : List OrderDict
  incomes : List Int
  feedback : List FeedbackDict
  bookings : List BookingDict
deriving DecidableEq

/-- The booking-collection loop of `Restaurant.to_full`:
`for t in self.tables: for b in t.bookings: bookings.append(b.to_dict())`,
written as a left fold that appends each table's serialized bookings. -/
def collectBookings (ts : List Table) : List BookingDict :=
  ts.foldl (fun acc t => acc ++ t.bookings.map (fun b => Booking.to_dict t b)) []

/-- Aggregation assembler `Restaurant.to_full`. -/
def Restaurant.to_full (r : Restaurant) : FullView :=
  { id := r.id
    name := r.name
    logo := logoOr r.logo r.name
    menu := r.menu_items.map MenuItem.to_dict
    tables := r.tables.map Table.to_dict
    orders := r.orders.map Order.to_dict
    incomes := r.incomes.map (fun i => i.amount)
    feedback := r.feedback.map Feedback.to_dict
    bookings := collectBookings r.tables }

/- ===================== Request handlers ===================== -/

/-- HTTP outcome of a handler, at the granularity the claims need:
a success status, a JSON error `{error: msg}` with a status code, the
`get_or_404` not-found response, or an uncaught Python exception
(500-class; the commit is never reached, so nothing persists). -/
inductive HResp where
  | success (code : Nat)
  | clientError (code : Nat) (msg : String)
  | notFound
  | exception
deriving DecidableEq

/-- Generic update-the-first-match, embedding the SQLAlchemy pattern of
`query.filter_by(...).first()` followed by an in-place mutation of the
returned row: only the first row satisfying `p` is replaced by its
image under `f`. -/
def updateFirst (p : α → Bool) (f : α → α) : List α → List α
  | [] => []
  | a :: as => if p a then f a :: as else a :: updateFirst p f as

/-- Embeds `Restaurant.query.get_or_404(rid)`. -/
def findRestaurant (s : DB) (rid : Nat) : Option Restaurant :=
  s.restaurants.find? (fun r => decide (r.id = rid))

/-- In-place mutation of the (unique) restaurant row with id `rid`, as
performed through the ORM object returned by `get_or_404`. -/
def updRest (rs : List Restaurant) (rid : Nat) (f : Restaurant → Restaurant) :
    List Restaurant :=
  updateFirst (fun r => decide (r.id = rid)) f rs

/-- Appends a freshly created menu item row (`MenuItem(...)`), with the
column default `order_count = 0`. -/
def addMenuRow (mid : Nat) (name : String) (price : Int) (img : Option String)
    (r : Restaurant) : Restaurant :=
  { r with menu_items := r.menu_items ++ [⟨mid, name, price, img, 0⟩] }

/-- The `t.status = status` branch of `add_table`: mutate the status of
the first table row with the given number. -/
def setStatusRow (num status : String) (r : Restaurant) : Restaurant :=
  let ts := updateFirst (fun t => decide (t.num = num))
    (fun t => { t with status := status }) r.tables
  { r with tables := ts }

/-- The insert branch of `add_table`: append a fresh table row. -/
def addTableRow (tid : Nat) (num status : String) (r : Restaurant) : Restaurant :=
  { r with tables := r.tables ++ [⟨tid, num, status, []⟩] }

/-- Appends a freshly created income row (`Income(...)`). -/
def addIncomeRow (iid : Nat) (amt : Int) (r : Restaurant) : Restaurant :=
  { r with incomes := r.incomes ++ [⟨iid, amt⟩] }

/-- Appends a freshly created feedback row (`Feedback(...)`). -/
def addFeedbackRow (fid : Nat) (userName : String) (fr sr : Int) (text : String)
    (r : Restaurant) : Restaurant :=
  { r with feedback := r.feedback ++ [⟨fid, userName, fr, sr, text⟩] }

/-- The state change of a successful `create_order` on one restaurant:
the updated menu-item list (order counts bumped) and the appended order
row. -/
def addOrderRow (o : Order) (ms : List MenuItem) (r : Restaurant) : Restaurant :=
  { r with menu_items := ms, orders := r.orders ++ [o] }

/-- Payload of `POST /api/register`. -/
structure RegisterReq where
  type : Option String
  name : Option String
  email : Option String
  password : Option String
deriving DecidableEq

/-- Handler `register` (`POST /api/register`).  `gh` is the external
`generate_password_hash` collaborator. -/
def register (gh : String → String) (s : DB) (req : RegisterReq) : HResp × DB :=
  if ¬ (strTruthy req.type ∧ strTruthy req.name ∧ strTruthy req.email
        ∧ strTruthy req.password) then
    (.clientError 400 "Missing fields", s)
  else
    let type_ := req.type.getD ""
    let name := req.name.getD ""
    let email := req.email.getD ""
    let password := req.password.getD ""
    if (s.users.find? (fun u => decide (u.email = email))).isSome then
      (.clientError 400 "Email already registered", s)
    else if type_ = "restaurant" then
      (.success 201,
       { s with
          restaurants := s.restaurants
            ++ [⟨s.next_restaurant_id, name, none, [], [], [], [], []⟩]
          users := s.users
            ++ [⟨s.next_user_id, name, email, gh password, type_,
                 some s.next_restaurant_id⟩]
          next_restaurant_id := s.next_restaurant_id + 1
          next_user_id := s.next_user_id + 1 })
    else
      (.success 201,
       { s with
          users := s.users
            ++ [⟨s.next_user_id, name, email, gh password, type_, none⟩]
          next_user_id := s.next_user_id + 1 })

/-- Payload of `POST /api/login`. -/
structure LoginReq where
  email : Option String
  password : Option String
deriving DecidableEq

/-- Response of the `login` handler: either the user payload (with
`restaurantId` present exactly for restaurant-typed users) or a JSON
error with a status code. -/
inductive LoginResp where
  | ok (id : Nat) (name : String) (email : String) (type : String)
       (restaurantId : Option Nat)
  | err (code : Nat) (msg : String)
deriving DecidableEq

/-- Handler `login` (`POST /api/login`).  `ch` is the external
`check_password_hash` collaborator. -/
def login (ch : String → String → Bool) (s : DB) (req : LoginReq) : LoginResp :=
  if ¬ (strTruthy req.email ∧ strTruthy req.password) then
    .err 400 "Missing credentials"
  else
    let email := req.email.getD ""
    let password := req.password.getD ""
    match s.users.find? (fun u => decide (u.email = email)) with
    | none => .err 401 "Invalid email or password"
    | some u =>
      if ¬ ch u.password_hash password then
        .err 401 "Invalid email or password"
      else
        .ok u.id u.name u.email u.type
          (if u.type = "restaurant" then u.restaurant_id else none)

/-- Payload of `POST /api/restaurants/{rid}/menu`. -/
structure MenuReq where
  name : Option String
  price : Option Val
  img : Option String
deriving DecidableEq

/-- Handler `add_menu_item` (`POST /api/restaurants/{rid}/menu`).
Note the unguarded `float(price)`: a present but non-coercible price
raises an uncaught `ValueError`. -/
def add_menu_item (s : DB) (rid : Nat) (req : MenuReq) : HResp × DB :=
  match findRestaurant s rid with
  | none => (.notFound, s)
  | some _ =>
    if ¬ strTruthy req.name then (.clientError 400 "Missing name or price", s)
    else
      match req.price with
      | none => (.clientError 400 "Missing name or price", s)
      | some pv =>
        match pyFloat pv with
        | none => (.exception, s)
        | some p =>
          (.success 201,
           { s with
              restaurants :=
                updRest s.restaurants rid
                  (addMenuRow s.next_menu_id (req.name.getD "") p req.img)
              next_menu_id := s.next_menu_id + 1 })

/-- Payload of `POST /api/restaurants/{rid}/tables`. -/
structure TableReq where
  num : Option String
  status : Option String
deriving DecidableEq

/-- Handler `add_table` (`POST /api/restaurants/{rid}/tables`): an
upsert keyed on the (restaurant, num) pair. -/
def add_table (s : DB) (rid : Nat) (req : TableReq) : HResp × DB :=
  match findRestaurant s rid with
  | none => (.notFound, s)
  | some r =>
    let status := req.status.getD "Available"
    if ¬ strTruthy req.num then (.clientError 400 "Missing table number", s)
    else
      let num := req.num.getD ""
      if (r.tables.find? (fun t => decide (t.num = num))).isSome then
        (.success 201,
         { s with
            restaurants := updRest s.restaurants rid (setStatusRow num status) })
      else
        (.success 201,
         { s with
            restaurants :=
              updRest s.restaurants rid (addTableRow s.next_table_id num status)
            next_table_id := s.next_table_id + 1 })

/-- Payload of `POST /api/restaurants/{rid}/income`. -/
structure IncomeReq where
  amount : Option Val
deriving DecidableEq

/-- Handler `add_income` (`POST /api/restaurants/{rid}/income`): the
`float(amount)` coercion is wrapped in `try/except (ValueError,
TypeError)`, so an absent or non-coercible amount yields a 400. -/
def add_income (s : DB) (rid : Nat) (req : IncomeReq) : HResp × DB :=
  match findRestaurant s rid with
  | none => (.notFound, s)
  | some _ =>
    match req.amount.bind pyFloat with
    | none => (.clientError 400 "Invalid amount", s)
    | some amt =>
      (.success 201,
       { s with
          restaurants := updRest s.restaurants rid (addIncomeRow s.next_income_id amt)
          next_income_id := s.next_income_id + 1 })

/-- Payload of `POST /api/restaurants/{rid}/feedback`. -/
structure FeedbackReq where
  userName : Option String
  foodRating : Option Val
  serviceRating : Option Val
  text : Option String
deriving DecidableEq

/-- Handler `add_feedback` (`POST /api/restaurants/{rid}/feedback`).
The `int(...)` coercions of the ratings are unguarded: a present but
non-coercible rating raises an uncaught exception. -/
def add_feedback (s : DB) (rid : Nat) (req : FeedbackReq) : HResp × DB :=
  match findRestaurant s rid with
  | none => (.notFound, s)
  | some _ =>
    match pyInt (req.foodRating.getD (.vnum 0)) with
    | none => (.exception, s)
    | some fr =>
      match pyInt (req.serviceRating.getD (.vnum 0)) with
      | none => (.exception, s)
      | some sr =>
        (.success 201,
         { s with
            restaurants :=
              updRest s.restaurants rid
                (addFeedbackRow s.next_feedback_id (req.userName.getD "Anonymous")
                  fr sr (req.text.getD ""))
            next_feedback_id := s.next_feedback_id + 1 })

/-- Payload of `POST /api/restaurants/{rid}/orders`. -/
structure OrderReq where
  userName : Option String
  items : List LineItem
  method : Option String
  total : Option Val
deriving DecidableEq

/-- One step of the order-count update loop of `create_order`:
`mi.order_count = (mi.order_count or 0) + qty` on the first menu row
with the given id (the `or 0` NULL-guard is vacuous here since the
column default makes every stored count an integer). -/
def bumpCount (mid : Nat) (qty : Int) (ms : List MenuItem) : List MenuItem :=
  updateFirst (fun m => decide (m.id = mid))
    (fun m => { m with order_count := m.order_count + qty }) ms

/-- The order-count update loop of `create_order`: for each line item,
coerce `it.get("qty", 1)` with `int` (an uncoercible value raises, so
the whole request fails and nothing commits), then — when the line's
id is truthy (present and nonzero) — bump the first menu item of the
restaurant with that id by `qty`. -/
def applyItems : List LineItem → List MenuItem → Option (List MenuItem)
  | [], ms => some ms
  | it :: rest, ms =>
    match pyInt (it.qty.getD (.vnum 1)) with
    | none => none
    | some qty =>
      match it.id with
      | some mid =>
        if mid ≠ 0 then applyItems rest (bumpCount mid qty ms)
        else applyItems rest ms
      | none => applyItems rest ms

/-- Handler `create_order` (`POST /api/restaurants/{rid}/orders`).
`oid` is the externally generated random token `str(uuid.uuid4())[:8]`.
Note the unguarded `float(data.get("total", 0))` and per-line
`int(it.get("qty", 1))` coercions. -/
def create_order (s : DB) (rid : Nat) (oid : String) (req : OrderReq) :
    HResp × DB :=
  match findRestaurant s rid with
  | none => (.notFound, s)
  | some r =>
    match pyFloat (req.total.getD (.vnum 0)) with
    | none => (.exception, s)
    | some total =>
      match applyItems req.items r.menu_items with
      | none => (.exception, s)
      | some ms =>
        (.success 201,
         { s with
            restaurants :=
              updRest s.restaurants rid
                (addOrderRow ⟨oid, req.userName.getD "Guest", req.items, total,
                   req.method.getD "online"⟩ ms) })

/-- One inbound mutating request, for stating whole-system invariants. -/
inductive Op where
  | opRegister (req : RegisterReq)
  | opMenu (rid : Nat) (req : MenuReq)
  | opTable (rid : Nat) (req : TableReq)
  | opIncome (rid : Nat) (req : IncomeReq)
  | opFeedback (rid : Nat) (req : FeedbackReq)
  | opOrder (rid : Nat) (oid : String) (req : OrderReq)
deriving DecidableEq

/-- Whether an operation is an order placement. -/
def Op.isOrder : Op → Bool
  | .opOrder _ _ _ => true
  | _ => false

/-- The store transition of one request (response discarded). -/
def step (gh : String → String) (s : DB) : Op → DB
  | .opRegister req => (register gh s req).2
  | .opMenu rid req => (add_menu_item s rid req).2
  | .opTable rid req => (add_table s rid req).2
  | .opIncome rid req => (add_income s rid req).2
  | .opFeedback rid req => (add_feedback s rid req).2
  | .opOrder rid oid req => (create_order s rid oid req).2

/-- The store after a sequence of requests. -/
def runOps (gh : String → String) (s : DB) (ops : List Op) : DB :=
  ops.foldl (step gh) s

/-- The seeded store produced by `init_db` on a fresh database: the
demo restaurant "Spice & Flavor" with three menu items and three
tables. -/
def initDB : DB :=
  { users := []
    restaurants :=
      [⟨1, "Spice & Flavor",
        some "https://ui-avatars.com/api/?name=Spice+Flavor&background=ff6b35&color=fff",
        [⟨1, "Masala Dosa", 120,
          some "https://via.placeholder.com/400x200?text=Masala+Dosa", 45⟩,
         ⟨2, "Paneer Butter Masala", 240,
          some "https://via.placeholder.com/400x200?text=Paneer+Butter+Masala", 32⟩,
         ⟨3, "Biryani", 280,
          some "https://via.placeholder.com/400x200?text=Biryani", 67⟩],
        [⟨1, "1", "Available", []⟩, ⟨2, "2", "Available", []⟩,
         ⟨3, "3", "Occupied", []⟩],
        [], [], []⟩]
    next_user_id := 1
    next_restaurant_id := 2
    next_menu_id := 4
    next_table_id := 4
    next_income_id := 1
    next_feedback_id := 1 }

/-- Projection used to state order-count facts: the `order_count` of
the `j`-th menu item of the `i`-th restaurant, by stored position. -/
def getCount (s : DB) (i j : Nat) : Option Int :=
  match s.restaurants[i]? with
  | none => none
  | some r => (r.menu_items[j]?).map (fun m => m.order_count)

/-- Per-restaurant uniqueness of table numbers: the natural key of the
table upsert. -/
def TableInv (s : DB) : Prop :=
  ∀ r ∈ s.restaurants, (r.tables.map (fun t => t.num)).Nodup

instance : DecidablePred TableInv := fun s => by
  unfold TableInv; infer_instance

/-- A "clean" line item for stating the order-placement contract: an
optional menu-item id and an optional integer quantity (absent means
the `qty` key is missing, so the code defaults it to 1). -/
def cleanLine (c : Option Nat × Option Int) : LineItem :=
  ⟨c.1, c.2.map Val.vnum⟩

/-- Total quantity that a clean item list directs at menu-item id
`mid`: the sum, over the lines referencing `mid`, of their quantities
(1 when unspecified). -/
def specLineSum (cs : List (Option Nat × Option Int)) (mid : Nat) : Int :=
  (cs.map (fun c => if c.1 = some mid then c.2.getD 1 else 0)).sum

/-- Pointwise relation between a menu row and its updated image: same
id, order count not decreased. -/
def CountLE (m m' : MenuItem) : Prop :=
  m'.id = m.id ∧ m.order_count ≤ m'.order_count

/-- Uniqueness of the `email` column across all user rows. -/
def EmailInv (s : DB) : Prop := (s.users.map (fun u => u.email)).Nodup

instance : DecidablePred EmailInv := fun s => by
  unfold EmailInv; infer_instance

/-- Whether a handler outcome is a 400 validation error `{error: msg}`
(used to state what the numeric-coercion claims call failing closed). -/
def isValidationError400 : HResp → Bool
  | .clientError 400 _ => true
  | _ => false

/- ===================== Helper lemmas ===================== -/

theorem updateFirst_split {α : Type} (p : α → Bool) (f : α → α)
    (pre post : List α) (a : α) (hpre : ∀ x ∈ pre, p x = false)
    (ha : p a = true) :
    updateFirst p f (pre ++ a :: post) = pre ++ f a :: post := by
  induction pre with
  | nil => simp [updateFirst, ha]
  | cons x xs ih =>
    have hx : p x = false := hpre x (by simp)
    simp only [List.cons_append, updateFirst, hx]
    simp only [Bool.false_eq_true, if_false, List.cons.injEq, true_and]
    exact ih (fun y hy => hpre y (by simp [hy]))

theorem find?_split {α : Type} (p : α → Bool) (pre post : List α) (a : α)
    (hpre : ∀ x ∈ pre, p x = false) (ha : p a = true) :
    (pre ++ a :: post).find? p = some a := by
  induction pre with
  | nil => simp [List.find?, ha]
  | cons x xs ih =>
    have hx : p x = false := hpre x (by simp)
    simp only [List.cons_append, List.find?, hx]
    exact ih (fun y hy => hpre y (by simp [hy]))

theorem getElem?_append_some {α : Type} {l l' : List α} {i : Nat} {a : α}
    (h : l[i]? = some a) : (l ++ l')[i]? = some a := by
  have hi : i < l.length := (List.getElem?_eq_some.mp h).1
  rw [List.getElem?_append_left hi]
  exact h

theorem updateFirst_getElem? {α : Type} (p : α → Bool) (f : α → α)
    (l : List α) (i : Nat) :
    (updateFirst p f l)[i]? = l[i]? ∨
      ∃ a, l[i]? = some a ∧ (updateFirst p f l)[i]? = some (f a) := by
  induction l generalizing i with
  | nil => left; simp [updateFirst]
  | cons x xs ih =>
    by_cases hp : p x
    · cases i with
      | zero => right; exact ⟨x, by simp [updateFirst, hp]⟩
      | succ n => left; simp [updateFirst, hp]
    · cases i with
      | zero => left; simp [updateFirst, hp]
      | succ n =>
        have := ih n
        simpa [updateFirst, hp] using this

theorem foldl_append_flatten {α β : Type} (f : α → List β) :
    ∀ (ts : List α) (acc : List β),
      ts.foldl (fun a t => a ++ f t) acc = acc ++ (ts.map f).flatten
  | [], acc => by simp
  | t :: ts, acc => by
    simp only [List.foldl, List.map, List.flatten]
    rw [foldl_append_flatten f ts (acc ++ f t)]
    simp [List.append_assoc]

/- ===================== C1 ===================== -/

/-- C1: the `bookings` field of the aggregated full restaurant view is
the flattening of the two-level nested sequence of bookings — tables in
stored order, bookings within a table in stored order — so it equals
the concatenation of the per-table booking serializations, and its
length is the sum of the booking counts over all the restaurant's
tables. -/
theorem to_full_bookings_flattening (r : Restaurant) :
    r.to_full.bookings =
      (r.tables.map (fun t => t.bookings.map (fun b => Booking.to_dict t b))).flatten
    ∧ r.to_full.bookings.length =
      (r.tables.map (fun t => t.bookings.length)).sum := by
  have h : r.to_full.bookings =
      (r.tables.map (fun t => t.bookings.map (fun b => Booking.to_dict t b))).flatten := by
    show collectBookings r.tables = _
    unfold collectBookings
    rw [foldl_append_flatten]
    simp
  refine ⟨h, ?_⟩
  rw [h, List.length_flatten, List.map_map]
  congr 1
  apply List.map_congr_left
  intro t _
  simp

/- ===================== C3 ===================== -/

/-- C3 counterexample: the claim says a restaurant whose logo is set has
it returned unchanged, but a stored empty-string logo (set, not absent)
is falsy under Python's `or`, so both serializers return the generated
placeholder instead of the stored `""`. -/
theorem logo_set_returned_unchanged_counterexample :
    (Restaurant.to_list_item ⟨1, "A B", some "", [], [], [], [], []⟩).logo ≠ ""
    ∧ (Restaurant.to_full ⟨1, "A B", some "", [], [], [], [], []⟩).logo ≠ "" := by
  constructor <;> decide

/-- C3 (amended): when the stored logo is absent, both the list view and
the full view render the fixed avatar-service URL template with every
space of the restaurant's name replaced by `+` — in particular the name
"Spice & Flavor" renders the URL containing `Spice+&+Flavor`; a set
nonempty logo is returned unchanged in both views; a set empty-string
logo is treated like an absent one and also yields the placeholder. -/
theorem logo_field_spec (r : Restaurant) :
    (r.logo = none →
      r.to_list_item.logo =
        "https://ui-avatars.com/api/?name=" ++ pyReplaceSpacePlus r.name
          ++ "&&background=101827&color=fff"
      ∧ r.to_full.logo = r.to_list_item.logo)
    ∧ (∀ l, r.logo = some l → l ≠ "" →
        r.to_list_item.logo = l ∧ r.to_full.logo = l)
    ∧ (r.logo = some "" →
        r.to_list_item.logo = placeholderLogo r.name
        ∧ r.to_full.logo = placeholderLogo r.name)
    ∧ (r.logo = none → r.name = "Spice & Flavor" →
        r.to_list_item.logo =
          "https://ui-avatars.com/api/?name=Spice+&+Flavor&&background=101827&color=fff") := by
  refine ⟨?_, ?_, ?_, ?_⟩
  · intro h
    simp [Restaurant.to_list_item, Restaurant.to_full, logoOr, strTruthy, h,
      placeholderLogo]
  · intro l h hl
    simp [Restaurant.to_list_item, Restaurant.to_full, logoOr, strTruthy, h, hl]
  · intro h
    simp [Restaurant.to_list_item, Restaurant.to_full, logoOr, strTruthy, h]
  · intro h hn
    simp [Restaurant.to_list_item, logoOr, strTruthy, h, hn, placeholderLogo]
    decide

/-- C3 witness: the amended theorem applied to a concrete logo-less
restaurant named "Spice & Flavor". -/
theorem logo_field_spec_witness :
    (Restaurant.to_list_item ⟨7, "Spice & Flavor", none, [], [], [], [], []⟩).logo =
      "https://ui-avatars.com/api/?name=Spice+&+Flavor&&background=101827&color=fff" :=
  (logo_field_spec ⟨7, "Spice & Flavor", none, [], [], [], [], []⟩).2.2.2 rfl rfl

/- ===================== C8 ===================== -/

/-- C8: with present credentials, every login that fails authentication
— whether because no user has the email, or because the first user with
that email fails the password check — returns the one fixed response
`401 {error: "Invalid email or password"}`; the two failure causes are
therefore indistinguishable from the response. -/
theorem login_uniform_failure (ch : String → String → Bool) (s : DB)
    (email password : String) (he : email ≠ "") (hp : password ≠ "")
    (h : ∀ u, s.users.find? (fun u => decide (u.email = email)) = some u →
          ch u.password_hash password = false) :
    login ch s ⟨some email, some password⟩ =
      LoginResp.err 401 "Invalid email or password" := by
  unfold login
  simp only [strTruthy, Option.getD_some]
  rw [if_neg (by simp [he, hp])]
  cases hfind : s.users.find? (fun u => decide (u.email = email)) with
  | none => rfl
  | some u =>
    have := h u hfind
    simp [this]

/-- C8 witness: a store holding one user whose stored hash rejects the
supplied password; the response is the fixed 401. -/
theorem login_uniform_failure_witness :
    login (fun h p => decide (h = p))
        ⟨[⟨1, "A", "a@b.c", "hash-of-pw", "customer", none⟩], [], 2, 1, 1, 1, 1, 1⟩
        ⟨some "a@b.c", some "wrong"⟩ =
      LoginResp.err 401 "Invalid email or password" := by
  apply login_uniform_failure (fun h p => decide (h = p)) _ "a@b.c" "wrong"
    (by decide) (by decide)
  intro u hu
  have h0 : ([⟨1, "A", "a@b.c", "hash-of-pw", "customer", none⟩] : List User).find?
      (fun u => decide (u.email = "a@b.c")) =
      some ⟨1, "A", "a@b.c", "hash-of-pw", "customer", none⟩ := rfl
  rw [h0] at hu
  cases hu
  decide

/- ===================== C6 and C7 ===================== -/

theorem emails_nodup_append (us : List User) (u : User)
    (h : (us.map (fun x => x.email)).Nodup)
    (hne : ∀ x ∈ us, ¬ x.email = u.email) :
    ((us ++ [u]).map (fun x => x.email)).Nodup := by
  rw [List.map_append, List.nodup_append]
  refine ⟨h, by simp, ?_⟩
  intro e hes hee
  simp only [List.map_cons, List.map_nil, List.mem_cons,
    List.not_mem_nil, or_false] at hee
  obtain ⟨x, hx, hxe⟩ := List.mem_map.mp hes
  exact hne x hx (by rw [hxe, hee])

theorem register_success (gh : String → String) (s : DB) (req : RegisterReq)
    (ht : strTruthy req.type = true) (hn : strTruthy req.name = true)
    (he : strTruthy req.email = true) (hp : strTruthy req.password = true)
    (hfresh : s.users.find? (fun u => decide (u.email = req.email.getD "")) = none) :
    (register gh s req).1 = HResp.success 201
    ∧ ∃ rid, (register gh s req).2.users =
        s.users ++ [⟨s.next_user_id, req.name.getD "", req.email.getD "",
          gh (req.password.getD ""), req.type.getD "", rid⟩] := by
  unfold register
  rw [if_neg (by simp [ht, hn, he, hp])]
  simp only [hfresh, Option.isSome_none, Bool.false_eq_true, if_false]
  by_cases htype : req.type.getD "" = "restaurant"
  · rw [if_pos htype]
    exact ⟨rfl, some s.next_restaurant_id, rfl⟩
  · rw [if_neg htype]
    exact ⟨rfl, none, rfl⟩

/-- C6: when the fields of both calls are present and the email is not
yet taken, the first register call succeeds with 201; a second call
using the same email fails with the duplicate-email 400 error and
returns the store of the first call unchanged, so no second user row is
created; moreover every register call preserves uniqueness of the email
column across all users. -/
theorem register_duplicate_email (gh gh2 : String → String) (s : DB)
    (req1 req2 : RegisterReq)
    (ht1 : strTruthy req1.type = true) (hn1 : strTruthy req1.name = true)
    (he1 : strTruthy req1.email = true) (hp1 : strTruthy req1.password = true)
    (ht2 : strTruthy req2.type = true) (hn2 : strTruthy req2.name = true)
    (he2 : strTruthy req2.email = true) (hp2 : strTruthy req2.password = true)
    (hsame : req2.email = req1.email)
    (hfresh : s.users.find? (fun u => decide (u.email = req1.email.getD "")) = none) :
    (register gh s req1).1 = HResp.success 201
    ∧ register gh2 (register gh s req1).2 req2 =
        (HResp.clientError 400 "Email already registered", (register gh s req1).2)
    ∧ (∀ (gh' : String → String) (s' : DB) (req' : RegisterReq),
        EmailInv s' → EmailInv (register gh' s' req').2) := by
  obtain ⟨h1, rid, husers⟩ := register_success gh s req1 ht1 hn1 he1 hp1 hfresh
  refine ⟨h1, ?_, ?_⟩
  · have hmem : ∃ u ∈ (register gh s req1).2.users,
        decide (u.email = req2.email.getD "") = true := by
      refine ⟨⟨s.next_user_id, req1.name.getD "", req1.email.getD "",
        gh (req1.password.getD ""), req1.type.getD "", rid⟩, ?_, ?_⟩
      · rw [husers]; simp
      · simp [hsame]
    have hsome : ((register gh s req1).2.users.find?
        (fun u => decide (u.email = req2.email.getD ""))).isSome := by
      rw [List.find?_isSome]
      simpa using hmem
    conv_lhs => rw [register]
    rw [if_neg (by simp [ht2, hn2, he2, hp2])]
    rw [if_pos hsome]
  · intro gh' s' req'
    intro hinv
    unfold register
    split
    · exact hinv
    · dsimp only
      split
      · exact hinv
      · have hfresh' : ∀ u ∈ s'.users, ¬ u.email = req'.email.getD "" := by
          rename_i hnotsome
          intro u hu heq
          apply hnotsome
          rw [List.find?_isSome]
          exact ⟨u, hu, by simp [heq]⟩
        split
        all_goals exact emails_nodup_append s'.users _ hinv hfresh'

/-- C6 witness: registering the same email twice against the empty
store; the second call returns the duplicate-email 400 and the store of
the first call. -/
theorem register_duplicate_email_witness :
    register (fun p => p)
        (register (fun p => p) emptyDB
          ⟨some "customer", some "A", some "a@b.c", some "pw"⟩).2
        ⟨some "customer", some "A", some "a@b.c", some "pw"⟩ =
      (HResp.clientError 400 "Email already registered",
       (register (fun p => p) emptyDB
         ⟨some "customer", some "A", some "a@b.c", some "pw"⟩).2) :=
  (register_duplicate_email (fun p => p) (fun p => p) emptyDB
    ⟨some "customer", some "A", some "a@b.c", some "pw"⟩
    ⟨some "customer", some "A", some "a@b.c", some "pw"⟩
    rfl rfl rfl rfl rfl rfl rfl rfl rfl rfl).2.1

/-- C7: with valid fields and a fresh email, registering with
type="restaurant" creates exactly one new Restaurant row and stores its
id in the new user's (non-null) restaurant reference, while registering
with type="customer" leaves the restaurant table unchanged and the new
user's restaurant reference null. -/
theorem register_restaurant_link (gh : String → String) (s : DB)
    (name email password : String)
    (hn : name ≠ "") (he : email ≠ "") (hp : password ≠ "")
    (hfresh : s.users.find? (fun u => decide (u.email = email)) = none) :
    register gh s ⟨some "restaurant", some name, some email, some password⟩ =
      (HResp.success 201,
       { s with
          restaurants := s.restaurants
            ++ [⟨s.next_restaurant_id, name, none, [], [], [], [], []⟩]
          users := s.users
            ++ [⟨s.next_user_id, name, email, gh password, "restaurant",
                 some s.next_restaurant_id⟩]
          next_restaurant_id := s.next_restaurant_id + 1
          next_user_id := s.next_user_id + 1 })
    ∧ register gh s ⟨some "customer", some name, some email, some password⟩ =
      (HResp.success 201,
       { s with
          users := s.users
            ++ [⟨s.next_user_id, name, email, gh password, "customer", none⟩]
          next_user_id := s.next_user_id + 1 }) := by
  constructor
  all_goals {
    unfold register
    rw [if_neg (by simp [strTruthy, hn, he, hp])]
    dsimp only [Option.getD_some]
    rw [hfresh]
    simp
  }

/-- C7 witness: the theorem at the empty store with concrete fields;
one restaurant row appears and the user links to it, and the customer
variant creates no restaurant. -/
theorem register_restaurant_link_witness :
    register (fun p => p) emptyDB ⟨some "restaurant", some "R", some "r@x.y", some "pw"⟩ =
      (HResp.success 201,
       ⟨[⟨1, "R", "r@x.y", "pw", "restaurant", some 1⟩],
        [⟨1, "R", none, [], [], [], [], []⟩], 2, 2, 1, 1, 1, 1⟩)
    ∧ register (fun p => p) emptyDB ⟨some "customer", some "R", some "r@x.y", some "pw"⟩ =
      (HResp.success 201,
       ⟨[⟨1, "R", "r@x.y", "pw", "customer", none⟩], [], 2, 1, 1, 1, 1, 1⟩) := by
  have h := register_restaurant_link (fun p => p) emptyDB "R" "r@x.y" "pw"
    (by decide) (by decide) (by decide) rfl
  exact ⟨h.1, h.2⟩

/- ===================== C10 ===================== -/

theorem find_split_rest (pre post : List Restaurant) (r : Restaurant) (rid : Nat)
    (hpre : ∀ x ∈ pre, x.id ≠ rid) (hr : r.id = rid) :
    (pre ++ r :: post).find? (fun x => decide (x.id = rid)) = some r :=
  find?_split _ pre post r (fun x hx => decide_eq_false (hpre x hx)) (by simp [hr])

theorem updRest_split (pre post : List Restaurant) (r : Restaurant) (rid : Nat)
    (f : Restaurant → Restaurant)
    (hpre : ∀ x ∈ pre, x.id ≠ rid) (hr : r.id = rid) :
    updRest (pre ++ r :: post) rid f = pre ++ f r :: post :=
  updateFirst_split _ f pre post r (fun x hx => decide_eq_false (hpre x hx)) (by simp [hr])

/-- C10: submitting feedback with every optional field omitted to an
existing restaurant succeeds with 201 and appends exactly one feedback
row carrying the fixed defaults: userName "Anonymous", food and service
ratings 0, empty text.  Nothing else in the store changes. -/
theorem add_feedback_defaults (s : DB) (rid : Nat)
    (pre post : List Restaurant) (r : Restaurant)
    (hs : s.restaurants = pre ++ r :: post)
    (hpre : ∀ x ∈ pre, x.id ≠ rid) (hr : r.id = rid) :
    add_feedback s rid ⟨none, none, none, none⟩ =
      (HResp.success 201,
       { s with
          restaurants := pre ++ addFeedbackRow s.next_feedback_id "Anonymous" 0 0 "" r :: post
          next_feedback_id := s.next_feedback_id + 1 }) := by
  unfold add_feedback findRestaurant
  rw [hs, find_split_rest pre post r rid hpre hr]
  dsimp only [Option.getD_none, pyInt]
  rw [updRest_split pre post r rid _ hpre hr]

/-- C10 witness: all-defaults feedback against the seeded store: the
demo restaurant gains the single row (1, "Anonymous", 0, 0, ""). -/
theorem add_feedback_defaults_witness :
    (add_feedback initDB 1 ⟨none, none, none, none⟩).2.restaurants.map
        (fun r => r.feedback) =
      [[⟨1, "Anonymous", 0, 0, ""⟩]] := by
  have h := add_feedback_defaults initDB 1 []
    (initDB.restaurants.drop 1) (initDB.restaurants.getD 0 ⟨0,"",none,[],[],[],[],[]⟩)
    rfl (by simp) rfl
  rw [h]
  rfl

/- ===================== C5 ===================== -/

theorem updateFirst_mem_strong {α : Type} (p : α → Bool) (f : α → α)
    (l : List α) (x : α) (hx : x ∈ updateFirst p f l) :
    x ∈ l ∨ ∃ a, l.find? p = some a ∧ x = f a := by
  induction l with
  | nil => simp [updateFirst] at hx
  | cons y l ih =>
    cases hp : p y with
    | true =>
      rw [updateFirst, if_pos hp] at hx
      rcases List.mem_cons.mp hx with h | h
      · right; exact ⟨y, by simp [List.find?, hp], h⟩
      · left; exact List.mem_cons_of_mem _ h
    | false =>
      rw [updateFirst, if_neg (by simp [hp])] at hx
      rcases List.mem_cons.mp hx with h | h
      · left; simp [h]
      · rcases ih h with h' | ⟨a, hfa, hxa⟩
        · left; exact List.mem_cons_of_mem _ h'
        · right; exact ⟨a, by simp [List.find?, hp, hfa], hxa⟩

theorem updateFirst_map_key {α β : Type} (p : α → Bool) (f : α → α) (k : α → β)
    (l : List α) (h : ∀ a, k (f a) = k a) :
    (updateFirst p f l).map k = l.map k := by
  induction l with
  | nil => rfl
  | cons y l ih =>
    cases hp : p y with
    | true => rw [updateFirst, if_pos hp]; simp [h y]
    | false => rw [updateFirst, if_neg (by simp [hp])]; simp [ih]

theorem tableInv_updRest (rs : List Restaurant) (rid : Nat)
    (f : Restaurant → Restaurant)
    (hinv : ∀ r ∈ rs, (r.tables.map (fun t => t.num)).Nodup)
    (hf : ∀ a, rs.find? (fun x => decide (x.id = rid)) = some a →
          ((f a).tables.map (fun t => t.num)).Nodup) :
    ∀ r ∈ updRest rs rid f, (r.tables.map (fun t => t.num)).Nodup := by
  intro r hr
  rcases updateFirst_mem_strong _ f rs r hr with h | ⟨a, hfa, hra⟩
  · exact hinv r h
  · subst hra; exact hf a hfa

theorem step_preserves_tableInv (gh : String → String) (s : DB) (op : Op)
    (hinv : TableInv s) : TableInv (step gh s op) := by
  cases op with
  | opRegister req =>
    show TableInv (register gh s req).2
    unfold register
    split
    · exact hinv
    · dsimp only
      split
      · exact hinv
      · split
        · intro r' hr'
          rcases List.mem_append.mp hr' with h | h
          · exact hinv r' h
          · simp only [List.mem_singleton] at h; subst h; simp
        · exact hinv
  | opMenu rid req =>
    show TableInv (add_menu_item s rid req).2
    unfold add_menu_item
    split
    · exact hinv
    · split
      · exact hinv
      · split
        · exact hinv
        · split
          · exact hinv
          · intro r' hr'
            refine tableInv_updRest s.restaurants rid _ hinv ?_ r' hr'
            intro a hfa
            exact hinv a (List.mem_of_find?_eq_some hfa)
  | opTable rid req =>
    show TableInv (add_table s rid req).2
    unfold add_table
    split
    · exact hinv
    · rename_i r hfind
      dsimp only
      split
      · exact hinv
      · split
        · intro r' hr'
          refine tableInv_updRest s.restaurants rid _ hinv ?_ r' hr'
          intro a hfa
          show ((setStatusRow (req.num.getD "") (req.status.getD "Available") a).tables.map
            (fun t => t.num)).Nodup
          unfold setStatusRow
          dsimp only
          rw [updateFirst_map_key (fun t => decide (t.num = req.num.getD ""))
            (fun t => { t with status := req.status.getD "Available" })
            (fun t => t.num) a.tables (fun t => rfl)]
          exact hinv a (List.mem_of_find?_eq_some hfa)
        · rename_i hnone
          intro r' hr'
          refine tableInv_updRest s.restaurants rid _ hinv ?_ r' hr'
          intro a hfa
          have ha : a = r := by
            have : findRestaurant s rid = some a := hfa
            rw [hfind] at this
            exact (Option.some.inj this).symm
          subst ha
          show ((a.tables ++ [(⟨s.next_table_id, req.num.getD "",
            req.status.getD "Available", []⟩ : Table)]).map (fun t => t.num)).Nodup
          rw [List.map_append]
          rw [List.nodup_append]
          refine ⟨hinv a (List.mem_of_find?_eq_some hfa), by simp, ?_⟩
          have hnn : a.tables.find? (fun t => decide (t.num = req.num.getD "")) = none := by
            cases hcf : a.tables.find? (fun t => decide (t.num = req.num.getD "")) with
            | none => rfl
            | some t0 => rw [hcf] at hnone; simp at hnone
          intro e hes hee
          simp only [List.map_cons, List.map_nil, List.mem_cons,
            List.not_mem_nil, or_false] at hee
          obtain ⟨t0, ht0, ht0e⟩ := List.mem_map.mp hes
          have := List.find?_eq_none.mp hnn t0 ht0
          simp only [decide_eq_true_eq] at this
          exact this (by rw [ht0e, hee])
  | opIncome rid req =>
    show TableInv (add_income s rid req).2
    unfold add_income
    split
    · exact hinv
    · split
      · exact hinv
      · intro r' hr'
        refine tableInv_updRest s.restaurants rid _ hinv ?_ r' hr'
        intro a hfa
        exact hinv a (List.mem_of_find?_eq_some hfa)
  | opFeedback rid req =>
    show TableInv (add_feedback s rid req).2
    unfold add_feedback
    split
    · exact hinv
    · split
      · exact hinv
      · split
        · exact hinv
        · intro r' hr'
          refine tableInv_updRest s.restaurants rid _ hinv ?_ r' hr'
          intro a hfa
          exact hinv a (List.mem_of_find?_eq_some hfa)
  | opOrder rid oid req =>
    show TableInv (create_order s rid oid req).2
    unfold create_order
    split
    · exact hinv
    · split
      · exact hinv
      · split
        · exact hinv
        · intro r' hr'
          refine tableInv_updRest s.restaurants rid _ hinv ?_ r' hr'
          intro a hfa
          exact hinv a (List.mem_of_find?_eq_some hfa)

theorem runOps_tableInv (gh : String → String) (ops : List Op) :
    ∀ s, TableInv s → TableInv (runOps gh s ops) := by
  induction ops with
  | nil => exact fun s h => h
  | cons op ops ih =>
    intro s h
    exact ih _ (step_preserves_tableInv gh s op h)

/-- C5: the add-table operation is an upsert keyed on the
(restaurant, num) pair — when a table with the given number already
exists for the restaurant it mutates that row's status in place and
creates no new row, and otherwise it appends exactly one new row with
the given number and status (defaulting to "Available") — and table
numbers stay unique per restaurant: every request preserves the
at-most-one-row-per-(restaurant, num) invariant, and every state
reachable from the seeded store satisfies it. -/
theorem add_table_upsert :
    (∀ (s : DB) (rid : Nat) (num : String) (st : Option String)
       (pre post : List Restaurant) (r : Restaurant)
       (tpre tpost : List Table) (t : Table),
       s.restaurants = pre ++ r :: post → (∀ x ∈ pre, x.id ≠ rid) → r.id = rid →
       num ≠ "" →
       r.tables = tpre ++ t :: tpost → (∀ y ∈ tpre, y.num ≠ num) → t.num = num →
       add_table s rid ⟨some num, st⟩ =
         (HResp.success 201,
          { s with restaurants := pre ++ { r with tables := tpre ++ { t with status := st.getD "Available" } :: tpost } :: post }))
    ∧ (∀ (s : DB) (rid : Nat) (num : String) (st : Option String)
         (pre post : List Restaurant) (r : Restaurant),
         s.restaurants = pre ++ r :: post → (∀ x ∈ pre, x.id ≠ rid) → r.id = rid →
         num ≠ "" →
         (∀ y ∈ r.tables, y.num ≠ num) →
         add_table s rid ⟨some num, st⟩ =
           (HResp.success 201,
            { s with restaurants := pre ++ { r with tables := r.tables ++ [⟨s.next_table_id, num, st.getD "Available", []⟩] } :: post
                     next_table_id := s.next_table_id + 1 }))
    ∧ (∀ (gh : String → String) (s : DB) (op : Op),
        TableInv s → TableInv (step gh s op))
    ∧ (∀ (gh : String → String) (ops : List Op),
        TableInv (runOps gh initDB ops)) := by
  refine ⟨?_, ?_, step_preserves_tableInv, ?_⟩
  · intro s rid num st pre post r tpre tpost t hs hpre hr hnum htab htpre htnum
    unfold add_table findRestaurant
    rw [hs, find_split_rest pre post r rid hpre hr]
    dsimp only [Option.getD_some]
    rw [if_neg (by simp [strTruthy, hnum])]
    have hft : r.tables.find? (fun x => decide (x.num = num)) = some t := by
      rw [htab]
      exact find?_split _ tpre tpost t
        (fun y hy => decide_eq_false (htpre y hy)) (by simp [htnum])
    rw [hft]
    simp only [Option.isSome_some, if_true]
    rw [updRest_split pre post r rid _ hpre hr]
    unfold setStatusRow
    rw [htab, updateFirst_split _ _ tpre tpost t
      (fun y hy => decide_eq_false (htpre y hy)) (by simp [htnum])]
  · intro s rid num st pre post r hs hpre hr hnum hnew
    unfold add_table findRestaurant
    rw [hs, find_split_rest pre post r rid hpre hr]
    dsimp only [Option.getD_some]
    rw [if_neg (by simp [strTruthy, hnum])]
    have hft : r.tables.find? (fun x => decide (x.num = num)) = none :=
      List.find?_eq_none.mpr (fun y hy => by simp [hnew y hy])
    rw [hft]
    simp only [Option.isSome_none, Bool.false_eq_true, if_false]
    rw [updRest_split pre post r rid _ hpre hr]
    rfl
  · intro gh ops
    exact runOps_tableInv gh ops initDB (by decide)

/-- C5 witness: against the seeded store, re-adding table "1" with
status "Occupied" mutates the existing row in place (three tables
remain), and adding table "9" appends a fourth row. -/
theorem add_table_upsert_witness :
    (add_table initDB 1 ⟨some "1", some "Occupied"⟩).2.restaurants.map
        (fun r => r.tables.map Table.to_dict) =
      [[⟨1, "1", "Occupied"⟩, ⟨2, "2", "Available"⟩, ⟨3, "3", "Occupied"⟩]]
    ∧ (add_table initDB 1 ⟨some "9", none⟩).2.restaurants.map
        (fun r => r.tables.map Table.to_dict) =
      [[⟨1, "1", "Available"⟩, ⟨2, "2", "Available"⟩, ⟨3, "3", "Occupied"⟩,
        ⟨4, "9", "Available"⟩]] := by
  constructor
  · have h := add_table_upsert.1 initDB 1 "1" (some "Occupied") []
      (initDB.restaurants.drop 1) (initDB.restaurants.getD 0 ⟨0,"",none,[],[],[],[],[]⟩)
      [] ((initDB.restaurants.getD 0 ⟨0,"",none,[],[],[],[],[]⟩).tables.drop 1)
      ((initDB.restaurants.getD 0 ⟨0,"",none,[],[],[],[],[]⟩).tables.getD 0 ⟨0,"","",[]⟩)
      rfl (by simp) rfl (by decide) rfl (by simp) rfl
    rw [h]
    rfl
  · have h := add_table_upsert.2.1 initDB 1 "9" none []
      (initDB.restaurants.drop 1) (initDB.restaurants.getD 0 ⟨0,"",none,[],[],[],[],[]⟩)
      rfl (by simp) rfl (by decide) (by decide)
    rw [h]
    rfl

/- ===================== C9 ===================== -/

/-- C9 counterexample: the claim says every POST endpoint fails closed
with a 400 validation error on a non-coercible numeric field, but
`add_menu_item` coerces `price` with a bare `float(...)`: posting the
menu item name "Dish" with price "abc" to the seeded restaurant raises
an uncaught exception (500-class), not a 400 — though, commit never
being reached, the store is indeed unchanged. -/
theorem numeric_fail_closed_counterexample :
    (add_menu_item initDB 1 ⟨some "Dish", some (.vstr "abc"), none⟩).1 =
      HResp.exception
    ∧ isValidationError400
        (add_menu_item initDB 1 ⟨some "Dish", some (.vstr "abc"), none⟩).1 = false
    ∧ (add_menu_item initDB 1 ⟨some "Dish", some (.vstr "abc"), none⟩).2 = initDB := by
  refine ⟨rfl, rfl, rfl⟩

theorem applyItems_none_of_bad_qty (items1 items2 : List LineItem)
    (it : LineItem) (ms : List MenuItem)
    (h1 : ∀ x ∈ items1, ∃ q, pyInt (x.qty.getD (.vnum 1)) = some q)
    (hbad : pyInt (it.qty.getD (.vnum 1)) = none) :
    applyItems (items1 ++ it :: items2) ms = none := by
  induction items1 generalizing ms with
  | nil => rw [List.nil_append, applyItems, hbad]
  | cons x xs ih =>
    obtain ⟨q, hq⟩ := h1 x (by simp)
    have hrest : ∀ y ∈ xs, ∃ q, pyInt (y.qty.getD (.vnum 1)) = some q :=
      fun y hy => h1 y (by simp [hy])
    rw [List.cons_append, applyItems, hq]
    cases hid : x.id with
    | none =>
      dsimp only
      exact ih _ hrest
    | some mid =>
      dsimp only
      by_cases hmid : mid ≠ 0
      · rw [if_pos hmid]
        exact ih _ hrest
      · rw [if_neg hmid]
        exact ih _ hrest

/-- C9 (amended): on an existing restaurant, only the income endpoint
fails closed on a bad numeric field — a missing or non-coercible
`amount` yields exactly `400 {error: "Invalid amount"}` with the store
unchanged — while a present but non-coercible menu `price`, order
`total`, or line-item `qty` (the first bad qty reached by the loop,
all earlier ones coercing) escapes as an uncaught 500-class exception
(with no writes persisted, since the commit is never reached) instead
of a 400. -/
theorem numeric_coercion_handling (s : DB) (rid : Nat) (r : Restaurant)
    (hfound : findRestaurant s rid = some r) :
    (∀ amount, amount.bind pyFloat = none →
       add_income s rid ⟨amount⟩ = (HResp.clientError 400 "Invalid amount", s))
    ∧ (∀ name pv img, strTruthy name = true → pyFloat pv = none →
       add_menu_item s rid ⟨name, some pv, img⟩ = (HResp.exception, s))
    ∧ (∀ (oid : String) (req : OrderReq), pyFloat (req.total.getD (.vnum 0)) = none →
       create_order s rid oid req = (HResp.exception, s))
    ∧ (∀ (oid : String) (req : OrderReq) (tot : Int)
         (items1 items2 : List LineItem) (it : LineItem),
       req.items = items1 ++ it :: items2 →
       (∀ x ∈ items1, ∃ q, pyInt (x.qty.getD (.vnum 1)) = some q) →
       pyInt (it.qty.getD (.vnum 1)) = none →
       pyFloat (req.total.getD (.vnum 0)) = some tot →
       create_order s rid oid req = (HResp.exception, s)) := by
  refine ⟨?_, ?_, ?_, ?_⟩
  · intro amount ha
    unfold add_income
    rw [hfound]
    dsimp only
    rw [ha]
  · intro name pv img hname hpv
    unfold add_menu_item
    rw [hfound]
    dsimp only
    rw [if_neg (by simp [hname])]
    rw [hpv]
  · intro oid req ht
    unfold create_order
    rw [hfound]
    dsimp only
    rw [ht]
  · intro oid req tot items1 items2 it hreq h1 hbad htot
    unfold create_order
    rw [hfound]
    dsimp only
    rw [htot]
    have hnone : applyItems req.items r.menu_items = none := by
      rw [hreq]
      exact applyItems_none_of_bad_qty items1 items2 it r.menu_items h1 hbad
    rw [hnone]

/-- C9 witness: against the seeded store, a non-numeric income amount
returns the 400 validation error with the store unchanged, while a
non-numeric menu price, order total, and line-item qty each escape as
an exception with the store unchanged. -/
theorem numeric_coercion_handling_witness :
    add_income initDB 1 ⟨some (.vstr "x")⟩ =
      (HResp.clientError 400 "Invalid amount", initDB)
    ∧ add_menu_item initDB 1 ⟨some "Dish", some (.vstr "x"), none⟩ =
      (HResp.exception, initDB)
    ∧ create_order initDB 1 "t" ⟨none, [], none, some (.vstr "x")⟩ =
      (HResp.exception, initDB)
    ∧ create_order initDB 1 "q"
        ⟨none, [⟨some 1, some (.vnum 2)⟩, ⟨some 1, some (.vstr "bad")⟩], none, none⟩ =
      (HResp.exception, initDB) := by
  have h := numeric_coercion_handling initDB 1
    (initDB.restaurants.getD 0 ⟨0,"",none,[],[],[],[],[]⟩) rfl
  refine ⟨h.1 (some (.vstr "x")) rfl, h.2.1 (some "Dish") (.vstr "x") none rfl rfl,
    h.2.2.1 "t" ⟨none, [], none, some (.vstr "x")⟩ rfl, ?_⟩
  refine h.2.2.2 "q"
    ⟨none, [⟨some 1, some (.vnum 2)⟩, ⟨some 1, some (.vstr "bad")⟩], none, none⟩ 0
    [⟨some 1, some (.vnum 2)⟩] [] ⟨some 1, some (.vstr "bad")⟩ rfl ?_ rfl rfl
  intro x hx
  simp only [List.mem_singleton] at hx
  subst hx
  exact ⟨2, rfl⟩

/- ===================== C2 ===================== -/

theorem specLineSum_cons (c : Option Nat × Option Int)
    (cs : List (Option Nat × Option Int)) (mid : Nat) :
    specLineSum (c :: cs) mid =
      (if c.1 = some mid then c.2.getD 1 else 0) + specLineSum cs mid := by
  simp [specLineSum]

theorem menu_map_noid (ms : List MenuItem) (mid : Nat) (qty : Int)
    (h : ∀ m ∈ ms, m.id ≠ mid) :
    ms.map (fun m => if m.id = mid then { m with order_count := m.order_count + qty } else m) = ms := by
  induction ms with
  | nil => rfl
  | cons m ms ih =>
    simp only [List.map_cons]
    rw [if_neg (h m (by simp))]
    rw [ih (fun x hx => h x (by simp [hx]))]

theorem bumpCount_eq_map (mid : Nat) (qty : Int) (ms : List MenuItem)
    (hnd : (ms.map (fun m => m.id)).Nodup) :
    bumpCount mid qty ms =
      ms.map (fun m => if m.id = mid then { m with order_count := m.order_count + qty } else m) := by
  induction ms with
  | nil => rfl
  | cons m ms ih =>
    rw [List.map_cons, List.nodup_cons] at hnd
    obtain ⟨hm, hnd'⟩ := hnd
    show updateFirst _ _ (m :: ms) = _
    rw [updateFirst]
    by_cases hmm : m.id = mid
    · rw [if_pos (by simp [hmm])]
      simp only [List.map_cons, if_pos hmm]
      have hrest : ∀ x ∈ ms, x.id ≠ mid := by
        intro x hx hxe
        apply hm
        rw [hmm, ← hxe]
        exact List.mem_map_of_mem (fun m => m.id) hx
      rw [menu_map_noid ms mid qty hrest]
    · rw [if_neg (by simp [hmm])]
      simp only [List.map_cons, if_neg hmm]
      exact congrArg (List.cons m) (ih hnd')

theorem map_bumpf_ids (ms : List MenuItem) (mid : Nat) (qty : Int) :
    (ms.map (fun m => if m.id = mid then { m with order_count := m.order_count + qty } else m)).map
        (fun m => m.id) =
      ms.map (fun m => m.id) := by
  rw [List.map_map]
  apply List.map_congr_left
  intro m _
  by_cases h : m.id = mid <;> simp [h]

theorem applyItems_clean (cs : List (Option Nat × Option Int))
    (ms : List MenuItem)
    (hnd : (ms.map (fun m => m.id)).Nodup) (hnz : ∀ m ∈ ms, m.id ≠ 0) :
    applyItems (cs.map cleanLine) ms =
      some (ms.map (fun m => { m with order_count := m.order_count + specLineSum cs m.id })) := by
  induction cs generalizing ms with
  | nil =>
    show some ms = _
    have h1 : ∀ m ∈ ms,
        ({ m with order_count := m.order_count + specLineSum [] m.id } : MenuItem) = m := by
      intro m _
      cases m
      simp [specLineSum]
    have h2 : ms.map (fun m =>
        ({ m with order_count := m.order_count + specLineSum [] m.id } : MenuItem)) = ms := by
      rw [List.map_congr_left h1]
      exact List.map_id ms
    rw [h2]
  | cons c cs ih =>
    obtain ⟨cid, cq⟩ := c
    have hq : pyInt ((cleanLine (cid, cq)).qty.getD (.vnum 1)) = some (cq.getD 1) := by
      cases cq <;> rfl
    have hid : (cleanLine (cid, cq)).id = cid := rfl
    show applyItems (cleanLine (cid, cq) :: cs.map cleanLine) ms = _
    rw [applyItems, hq, hid]
    cases cid with
    | none =>
      dsimp only
      rw [ih ms hnd hnz]
      congr 1
      apply List.map_congr_left
      intro m _
      rw [specLineSum_cons]
      simp
    | some mid =>
      by_cases hmid : mid = 0
      · subst hmid
        dsimp only
        rw [if_neg (by simp)]
        rw [ih ms hnd hnz]
        congr 1
        apply List.map_congr_left
        intro m hm
        rw [specLineSum_cons]
        have hne : ¬ ((some 0 : Option Nat) = some m.id) := by
          simp
          intro h0
          exact hnz m hm h0.symm
        rw [if_neg hne, zero_add]
      · dsimp only
        rw [if_pos hmid]
        rw [bumpCount_eq_map mid (cq.getD 1) ms hnd]
        have hnd2 : ((ms.map (fun m => if m.id = mid then { m with order_count := m.order_count + cq.getD 1 } else m)).map (fun m => m.id)).Nodup := by
          rw [map_bumpf_ids]
          exact hnd
        have hnz2 : ∀ m ∈ ms.map (fun m => if m.id = mid then { m with order_count := m.order_count + cq.getD 1 } else m), m.id ≠ 0 := by
          intro m hm
          obtain ⟨m0, hm0, hm0e⟩ := List.mem_map.mp hm
          subst hm0e
          by_cases h : m0.id = mid <;> simp [h, hnz m0 hm0, hmid]
        rw [ih _ hnd2 hnz2]
        congr 1
        rw [List.map_map]
        apply List.map_congr_left
        intro m _
        rw [specLineSum_cons]
        by_cases h : m.id = mid
        · have h' : (some mid : Option Nat) = some m.id := by rw [h]
          simp only [Function.comp, if_pos h, if_pos h']
          cases m
          simp
          ring
        · have h' : ¬ ((some mid : Option Nat) = some m.id) := by
            simp
            exact fun he => h he.symm
          simp only [Function.comp, if_neg h, if_neg h']
          cases m
          simp

/-- C2: placing an order on an existing restaurant with a list of line
items (optional id, optional integer qty) succeeds with 201 and updates
the store so that every menu item of that restaurant has its
order_count increased by exactly the total quantity the lines direct at
its id (each line counting its qty, defaulting to 1 when unspecified);
lines whose id resolves to no menu item of the restaurant contribute to
no counter and are silently skipped, menu items of other restaurants
and all unreferenced items keep their counts (their added sum is 0),
and the order row itself is appended.  The store-generated-id
hypotheses (nonzero, duplicate-free menu ids) reflect the relational
primary key. -/
theorem create_order_counts (s : DB) (rid : Nat) (oid : String)
    (userName method : Option String) (tot : Option Int)
    (cs : List (Option Nat × Option Int))
    (pre post : List Restaurant) (r : Restaurant)
    (hs : s.restaurants = pre ++ r :: post)
    (hpre : ∀ x ∈ pre, x.id ≠ rid) (hr : r.id = rid)
    (hnd : (r.menu_items.map (fun m => m.id)).Nodup)
    (hnz : ∀ m ∈ r.menu_items, m.id ≠ 0) :
    create_order s rid oid ⟨userName, cs.map cleanLine, method, tot.map Val.vnum⟩ =
      (HResp.success 201,
       { s with restaurants := pre ++ { r with menu_items := r.menu_items.map (fun m => { m with order_count := m.order_count + specLineSum cs m.id }), orders := r.orders ++ [⟨oid, userName.getD "Guest", cs.map cleanLine, tot.getD 0, method.getD "online"⟩] } :: post }) := by
  unfold create_order findRestaurant
  rw [hs, find_split_rest pre post r rid hpre hr]
  dsimp only
  have htot : pyFloat ((tot.map Val.vnum).getD (.vnum 0)) = some (tot.getD 0) := by
    cases tot <;> rfl
  rw [htot]
  rw [applyItems_clean cs r.menu_items hnd hnz]
  dsimp only
  rw [updRest_split pre post r rid _ hpre hr]
  rfl

/-- C2 witness: ordering 3 units of menu item 1 (plus one line with a
nonexistent id 99) against the seeded store: item 1's count goes from
45 to 48, items 2 and 3 keep 32 and 67, and the request succeeds. -/
theorem create_order_counts_witness :
    (create_order initDB 1 "ord1"
        ⟨none, [((some 1 : Option Nat), (some 3 : Option Int)),
                ((some 99 : Option Nat), (none : Option Int))].map cleanLine,
         none, none⟩).1 = HResp.success 201
    ∧ (create_order initDB 1 "ord1"
        ⟨none, [((some 1 : Option Nat), (some 3 : Option Int)),
                ((some 99 : Option Nat), (none : Option Int))].map cleanLine,
         none, none⟩).2.restaurants.map
        (fun r => r.menu_items.map (fun m => m.order_count)) = [[48, 32, 67]] := by
  have h := create_order_counts initDB 1 "ord1" none none none
    [(some 1, some 3), (some 99, none)] []
    (initDB.restaurants.drop 1) (initDB.restaurants.getD 0 ⟨0,"",none,[],[],[],[],[]⟩)
    rfl (by simp) rfl (by decide) (by decide)
  simp only [show Option.map Val.vnum (none : Option Int) = (none : Option Val) from rfl] at h
  rw [h]
  exact ⟨rfl, rfl⟩

/- ===================== C4 ===================== -/

theorem updateFirst_getElem_strong {α : Type} (p : α → Bool) (f : α → α)
    (l : List α) (i : Nat) :
    (updateFirst p f l)[i]? = l[i]? ∨
      ∃ a, l.find? p = some a ∧ l[i]? = some a ∧
        (updateFirst p f l)[i]? = some (f a) := by
  induction l generalizing i with
  | nil => left; simp [updateFirst]
  | cons y l ih =>
    cases hp : p y with
    | true =>
      cases i with
      | zero =>
        right
        exact ⟨y, by simp [List.find?, hp], by simp, by rw [updateFirst, if_pos hp]; simp⟩
      | succ n =>
        left
        rw [updateFirst, if_pos hp]
        simp
    | false =>
      cases i with
      | zero =>
        left
        rw [updateFirst, if_neg (by simp [hp])]
        simp
      | succ n =>
        rw [updateFirst, if_neg (by simp [hp])]
        rcases ih n with h | ⟨a, hfa, hla, hua⟩
        · left
          simpa using h
        · right
          exact ⟨a, by simp [List.find?, hp, hfa], by simpa using hla, by simpa using hua⟩

theorem forall2_getElem {α β : Type} {R : α → β → Prop} {l : List α}
    {l' : List β} (h : List.Forall₂ R l l') (i : Nat) :
    (l[i]? = none ∧ l'[i]? = none) ∨
      ∃ a b, l[i]? = some a ∧ l'[i]? = some b ∧ R a b := by
  induction h generalizing i with
  | nil => left; simp
  | cons hr hrest ih =>
    cases i with
    | zero => right; exact ⟨_, _, by simp, by simp, hr⟩
    | succ n => simpa using ih n

theorem forall2_countLE_trans {l1 l2 l3 : List MenuItem}
    (h1 : List.Forall₂ CountLE l1 l2) (h2 : List.Forall₂ CountLE l2 l3) :
    List.Forall₂ CountLE l1 l3 := by
  induction h1 generalizing l3 with
  | nil =>
    cases h2
    exact List.Forall₂.nil
  | cons hr hrest ih =>
    cases h2 with
    | cons hr' hrest' =>
      exact List.Forall₂.cons ⟨hr'.1.trans hr.1, hr.2.trans hr'.2⟩ (ih hrest')

theorem bumpCount_countLE (mid : Nat) (qty : Int) (ms : List MenuItem)
    (hq : 0 ≤ qty) : List.Forall₂ CountLE ms (bumpCount mid qty ms) := by
  induction ms with
  | nil => exact List.Forall₂.nil
  | cons m ms ih =>
    show List.Forall₂ CountLE (m :: ms) (updateFirst _ _ (m :: ms))
    rw [updateFirst]
    cases hp : decide (m.id = mid) with
    | true =>
      rw [if_pos rfl]
      refine List.Forall₂.cons ⟨rfl, by simp [hq]⟩ ?_
      exact List.forall₂_same.mpr (fun x _ => ⟨rfl, le_refl _⟩)
    | false =>
      rw [if_neg (by simp)]
      exact List.Forall₂.cons ⟨rfl, le_refl _⟩ ih

theorem applyItems_countLE (items : List LineItem) (ms ms' : List MenuItem)
    (h : applyItems items ms = some ms')
    (hq : ∀ it ∈ items, ∀ q, pyInt (it.qty.getD (.vnum 1)) = some q → 0 ≤ q) :
    List.Forall₂ CountLE ms ms' := by
  induction items generalizing ms with
  | nil =>
    cases h
    exact List.forall₂_same.mpr (fun x _ => ⟨rfl, le_refl _⟩)
  | cons it rest ih =>
    rw [applyItems] at h
    cases hpq : pyInt (it.qty.getD (.vnum 1)) with
    | none => rw [hpq] at h; cases h
    | some q =>
      rw [hpq] at h
      have hq0 : 0 ≤ q := hq it (by simp) q hpq
      have hqrest : ∀ x ∈ rest, ∀ q, pyInt (x.qty.getD (.vnum 1)) = some q → 0 ≤ q :=
        fun x hx => hq x (by simp [hx])
      cases hit : it.id with
      | none =>
        rw [hit] at h
        exact ih ms h hqrest
      | some mid =>
        rw [hit] at h
        dsimp only at h
        by_cases hmid : mid ≠ 0
        · rw [if_pos hmid] at h
          exact forall2_countLE_trans (bumpCount_countLE mid q ms hq0) (ih _ h hqrest)
        · rw [if_neg hmid] at h
          exact ih ms h hqrest

theorem getCount_eq_some_iff (s : DB) (i j : Nat) (c : Int) :
    getCount s i j = some c ↔
      ∃ r m, s.restaurants[i]? = some r ∧ r.menu_items[j]? = some m ∧
        m.order_count = c := by
  unfold getCount
  cases hri : s.restaurants[i]? with
  | none => simp
  | some r =>
    simp only [Option.some.injEq]
    constructor
    · intro h
      obtain ⟨m, hm, hmc⟩ := Option.map_eq_some'.mp h
      exact ⟨r, m, rfl, hm, hmc⟩
    · rintro ⟨r', m, hr', hm, hmc⟩
      cases hr'
      rw [hm, Option.map_some']
      rw [hmc]

theorem updRest_counts {P : Int → Int → Prop} (hrefl : ∀ x, P x x)
    (rs : List Restaurant) (rid : Nat) (f : Restaurant → Restaurant)
    (hf : ∀ a, rs.find? (fun x => decide (x.id = rid)) = some a →
          ∀ (j : Nat) (m : MenuItem), a.menu_items[j]? = some m →
            ∃ m', (f a).menu_items[j]? = some m' ∧ P m.order_count m'.order_count)
    (i j : Nat) (r0 : Restaurant) (m0 : MenuItem)
    (hi : rs[i]? = some r0) (hj : r0.menu_items[j]? = some m0) :
    ∃ r1 m1, (updRest rs rid f)[i]? = some r1 ∧ r1.menu_items[j]? = some m1 ∧
      P m0.order_count m1.order_count := by
  rcases updateFirst_getElem_strong (fun x => decide (x.id = rid)) f rs i with
    h | ⟨a, hfa, hla, hua⟩
  · exact ⟨r0, m0, by rw [show updRest rs rid f = updateFirst _ f rs from rfl, h, hi],
      hj, hrefl _⟩
  · rw [hi] at hla
    cases hla
    obtain ⟨m', hm', hp⟩ := hf r0 hfa j m0 hj
    exact ⟨f r0, m', hua, hm', hp⟩

theorem getElem?_append_none {α : Type} {l : List α} {x y : α} {j : Nat}
    (hn : l[j]? = none) (hs : (l ++ [x])[j]? = some y) : y = x := by
  have hlen : l.length ≤ j := List.getElem?_eq_none_iff.mp hn
  rw [List.getElem?_append_right hlen] at hs
  cases hk : j - l.length with
  | zero => rw [hk] at hs; simp at hs; exact hs.symm
  | succ n => rw [hk] at hs; simp at hs

/-- C4 counterexample: the claim says order placement never decreases
any order_count, but the `int(it.get("qty", 1))` coercion accepts
negative quantities: placing an order with qty -3 on menu item 1 of the
seeded store drops its count from 45 to 42. -/
theorem order_count_monotonic_counterexample :
    getCount initDB 0 0 = some 45
    ∧ getCount (step (fun p => p) initDB
        (Op.opOrder 1 "neg" ⟨none, [⟨some 1, some (.vnum (-3))⟩], none, none⟩)) 0 0 =
        some 42
    ∧ ¬ (45 : Int) ≤ 42 := by
  refine ⟨rfl, rfl, by decide⟩

theorem nonorder_counts_preserved (gh : String → String) (s : DB) (op : Op)
    (hop : op.isOrder = false) (i j : Nat) (c : Int)
    (h : getCount s i j = some c) : getCount (step gh s op) i j = some c := by
  obtain ⟨r0, m0, hi, hj, hc⟩ := (getCount_eq_some_iff s i j c).mp h
  cases op with
  | opRegister req =>
    show getCount (register gh s req).2 i j = some c
    unfold register
    split
    · exact h
    · dsimp only
      split
      · exact h
      · split
        · rw [getCount_eq_some_iff]
          exact ⟨r0, m0, getElem?_append_some hi, hj, hc⟩
        · exact h
  | opMenu rid req =>
    show getCount (add_menu_item s rid req).2 i j = some c
    unfold add_menu_item
    split
    · exact h
    · split
      · exact h
      · split
        · exact h
        · split
          · exact h
          · rename_i p hp
            rw [getCount_eq_some_iff]
            obtain ⟨r1, m1, h1, h2, h3⟩ :=
              updRest_counts (P := Eq) (fun x => rfl) s.restaurants rid
                (addMenuRow s.next_menu_id (req.name.getD "") p req.img)
                (fun a _ j' m hm => ⟨m, getElem?_append_some hm, rfl⟩)
                i j r0 m0 hi hj
            exact ⟨r1, m1, h1, h2, h3 ▸ hc⟩
  | opTable rid req =>
    show getCount (add_table s rid req).2 i j = some c
    unfold add_table
    split
    · exact h
    · dsimp only
      split
      · exact h
      · split
        · rw [getCount_eq_some_iff]
          obtain ⟨r1, m1, h1, h2, h3⟩ :=
            updRest_counts (P := Eq) (fun x => rfl) s.restaurants rid
              (setStatusRow (req.num.getD "") (req.status.getD "Available"))
              (fun a _ j' m hm => ⟨m, hm, rfl⟩) i j r0 m0 hi hj
          exact ⟨r1, m1, h1, h2, h3 ▸ hc⟩
        · rw [getCount_eq_some_iff]
          obtain ⟨r1, m1, h1, h2, h3⟩ :=
            updRest_counts (P := Eq) (fun x => rfl) s.restaurants rid
              (addTableRow s.next_table_id (req.num.getD "") (req.status.getD "Available"))
              (fun a _ j' m hm => ⟨m, hm, rfl⟩) i j r0 m0 hi hj
          exact ⟨r1, m1, h1, h2, h3 ▸ hc⟩
  | opIncome rid req =>
    show getCount (add_income s rid req).2 i j = some c
    unfold add_income
    split
    · exact h
    · split
      · exact h
      · rename_i amt hamt
        rw [getCount_eq_some_iff]
        obtain ⟨r1, m1, h1, h2, h3⟩ :=
          updRest_counts (P := Eq) (fun x => rfl) s.restaurants rid
            (addIncomeRow s.next_income_id amt)
            (fun a _ j' m hm => ⟨m, hm, rfl⟩) i j r0 m0 hi hj
        exact ⟨r1, m1, h1, h2, h3 ▸ hc⟩
  | opFeedback rid req =>
    show getCount (add_feedback s rid req).2 i j = some c
    unfold add_feedback
    split
    · exact h
    · split
      · exact h
      · split
        · exact h
        · rename_i x1 fr hfr x2 sr hsr
          rw [getCount_eq_some_iff]
          obtain ⟨r1, m1, h1, h2, h3⟩ :=
            updRest_counts (P := Eq) (fun x => rfl) s.restaurants rid
              (addFeedbackRow s.next_feedback_id (req.userName.getD "Anonymous")
                fr sr (req.text.getD ""))
              (fun a _ j' m hm => ⟨m, hm, rfl⟩) i j r0 m0 hi hj
          exact ⟨r1, m1, h1, h2, h3 ▸ hc⟩
  | opOrder rid oid req =>
    simp [Op.isOrder] at hop

theorem menu_new_counts_zero (s : DB) (rid : Nat) (req : MenuReq) (i j : Nat)
    (c : Int) (hnone : getCount s i j = none)
    (hsome : getCount (add_menu_item s rid req).2 i j = some c) : c = 0 := by
  unfold add_menu_item at hsome
  revert hsome
  split
  · intro hsome; rw [hnone] at hsome; cases hsome
  · split
    · intro hsome; rw [hnone] at hsome; cases hsome
    · split
      · intro hsome; rw [hnone] at hsome; cases hsome
      · split
        · intro hsome; rw [hnone] at hsome; cases hsome
        · rename_i p hp
          intro hsome
          obtain ⟨r1, m1, h1, h2, hc⟩ := (getCount_eq_some_iff _ i j c).mp hsome
          have h1' : (updateFirst (fun x => decide (x.id = rid))
              (addMenuRow s.next_menu_id (req.name.getD "") p req.img)
              s.restaurants)[i]? = some r1 := h1
          unfold getCount at hnone
          cases hri : s.restaurants[i]? with
          | none =>
            rcases updateFirst_getElem_strong (fun x => decide (x.id = rid))
                (addMenuRow s.next_menu_id (req.name.getD "") p req.img)
                s.restaurants i with hu | ⟨a, _, hla, _⟩
            · rw [hu, hri] at h1'
              cases h1'
            · rw [hri] at hla; cases hla
          | some rr =>
            rw [hri] at hnone
            have hmn : rr.menu_items[j]? = none := Option.map_eq_none'.mp hnone
            rcases updateFirst_getElem_strong (fun x => decide (x.id = rid))
                (addMenuRow s.next_menu_id (req.name.getD "") p req.img)
                s.restaurants i with hu | ⟨a, _, hla, hua⟩
            · rw [hu, hri] at h1'
              cases h1'
              rw [hmn] at h2
              cases h2
            · rw [hri] at hla
              cases hla
              rw [hua] at h1'
              cases h1'
              have hm1 : m1 = ⟨s.next_menu_id, req.name.getD "", p, req.img, 0⟩ :=
                getElem?_append_none hmn h2
              rw [← hc, hm1]

theorem order_counts_mono (s : DB) (rid : Nat) (oid : String) (req : OrderReq)
    (hq : ∀ it ∈ req.items, ∀ q, pyInt (it.qty.getD (.vnum 1)) = some q → 0 ≤ q)
    (i j : Nat) (c : Int) (h : getCount s i j = some c) :
    ∃ c', getCount (create_order s rid oid req).2 i j = some c' ∧ c ≤ c' := by
  obtain ⟨r0, m0, hi, hj, hc⟩ := (getCount_eq_some_iff s i j c).mp h
  unfold create_order
  split
  · exact ⟨c, h, le_refl c⟩
  · rename_i r heq
    split
    · exact ⟨c, h, le_refl c⟩
    · rename_i total htot
      split
      · exact ⟨c, h, le_refl c⟩
      · rename_i ms hap
        have hforall : List.Forall₂ CountLE r.menu_items ms :=
          applyItems_countLE req.items r.menu_items ms hap hq
        have hf : ∀ a, s.restaurants.find? (fun x => decide (x.id = rid)) = some a →
            ∀ (j' : Nat) (m : MenuItem), a.menu_items[j']? = some m →
              ∃ m', ms[j']? = some m' ∧ m.order_count ≤ m'.order_count := by
          intro a hfa j' m hm
          have ha : a = r := by
            have h2 : findRestaurant s rid = some a := hfa
            rw [heq] at h2
            exact (Option.some.inj h2).symm
          subst ha
          rcases forall2_getElem hforall j' with ⟨hn, _⟩ | ⟨x, y, hx, hy, hR⟩
          · rw [hn] at hm; cases hm
          · rw [hx] at hm
            cases hm
            exact ⟨y, hy, hR.2⟩
        obtain ⟨r1, m1, h1, h2, h3⟩ :=
          updRest_counts (P := fun x y => x ≤ y) (fun x => le_refl x)
            s.restaurants rid
            (addOrderRow ⟨oid, req.userName.getD "Guest", req.items, total,
              req.method.getD "online"⟩ ms) hf i j r0 m0 hi hj
        refine ⟨m1.order_count, ?_, hc ▸ h3⟩
        rw [getCount_eq_some_iff]
        exact ⟨r1, m1, h1, h2, rfl⟩

/-- C4 (amended): order_count is a per-position counter with these
guarantees — a menu position that did not exist before an add-menu call
holds count 0 afterwards (new items start at 0); every request other
than order placement leaves every existing order_count unchanged; and
an order placement all of whose line quantities coerce to non-negative
integers never decreases any order_count.  (The unamended monotonicity
is false: a negative qty, accepted by `int(...)`, decrements the
counter — see the counterexample.) -/
theorem order_count_behaviour :
    (∀ (s : DB) (rid : Nat) (req : MenuReq) (i j : Nat) (c : Int),
        getCount s i j = none →
        getCount (add_menu_item s rid req).2 i j = some c → c = 0)
    ∧ (∀ (gh : String → String) (s : DB) (op : Op), op.isOrder = false →
        ∀ (i j : Nat) (c : Int), getCount s i j = some c →
          getCount (step gh s op) i j = some c)
    ∧ (∀ (s : DB) (rid : Nat) (oid : String) (req : OrderReq),
        (∀ it ∈ req.items, ∀ q, pyInt (it.qty.getD (.vnum 1)) = some q → 0 ≤ q) →
        ∀ (i j : Nat) (c : Int), getCount s i j = some c →
          ∃ c', getCount (create_order s rid oid req).2 i j = some c' ∧ c ≤ c') :=
  ⟨menu_new_counts_zero,
   nonorder_counts_preserved,
   order_counts_mono⟩

/-- C4 witness: on the seeded store, a table-status request leaves item
1's count at 45, a freshly added menu item reads count 0, and an order
with non-negative qty 2 moves the count from 45 to a value at least 45
(in fact 47). -/
theorem order_count_behaviour_witness :
    (getCount (step (fun p => p) initDB (Op.opTable 1 ⟨some "1", some "Occupied"⟩)) 0 0 =
      some 45)
    ∧ (∀ c, getCount (add_menu_item initDB 1 ⟨some "New", some (.vnum 9), none⟩).2 0 3 =
        some c → c = 0)
    ∧ (∃ c', getCount (create_order initDB 1 "w"
        ⟨none, [⟨some 1, some (.vnum 2)⟩], none, none⟩).2 0 0 = some c' ∧ (45 : Int) ≤ c') := by
  refine ⟨?_, ?_, ?_⟩
  · exact order_count_behaviour.2.1 (fun p => p) initDB
      (Op.opTable 1 ⟨some "1", some "Occupied"⟩) rfl 0 0 45 rfl
  · intro c hc
    exact order_count_behaviour.1 initDB 1 ⟨some "New", some (.vnum 9), none⟩ 0 3 c rfl hc
  · refine order_count_behaviour.2.2 initDB 1 "w"
      ⟨none, [⟨some 1, some (.vnum 2)⟩], none, none⟩ ?_ 0 0 45 rfl
    intro it hit q hq
    simp only [List.mem_singleton] at hit
    subst hit
    cases hq
    decide
